import Mathlib

/-!
Verification of the coderClaw distributed task orchestrator core.

Shallow embedding of:
* `src/transport/task-engine.ts` — `VALID_TRANSITIONS`, `isValidTransition`,
  `MemoryTaskStorage`, `DistributedTaskEngine` (createTask, updateTaskStatus,
  updateTaskProgress, setTaskOutput, setTaskError, cancelTask);
* `src/coderclaw/orchestrator-enhanced.ts` — `EnhancedAgentOrchestrator`
  (createWorkflow, cancelWorkflow);
* `src/security/service.ts` — `BasicSecurityService` (checkPermission,
  checkAgentAccess) with the types of `src/security/types.ts`;
* `src/transport/clawlink-adapter.ts` — `ClawLinkTransportAdapter.streamTaskUpdates`.

JavaScript `Date` timestamps are modelled as `Nat` clock values passed
explicitly (`now`); `crypto.randomUUID()` is modelled by explicitly supplied
identifier arguments / generators; `async` methods whose awaited calls are all
in-memory are modelled as pure state-passing functions; a thrown `Error` is
modelled as `Except.error` carrying the message string.
-/

namespace CoderClaw

/-- The seven task statuses of `src/transport/types.ts` (`TaskStatus`). -/
inductive TaskStatus where
  | pending
  | planning
  | running
  | waiting
  | completed
  | failed
  | cancelled
deriving DecidableEq, Repr, Fintype

/-- The literal status strings of the wire vocabulary. -/
def statusStr : TaskStatus → String
  | .pending => "pending"
  | .planning => "planning"
  | .running => "running"
  | .waiting => "waiting"
  | .completed => "completed"
  | .failed => "failed"
  | .cancelled => "cancelled"

/-- `VALID_TRANSITIONS` of `src/transport/task-engine.ts`: the allowed next
statuses for each status. -/
def VALID_TRANSITIONS : TaskStatus → List TaskStatus
  | .pending => [.planning, .cancelled]
  | .planning => [.running, .failed, .cancelled]
  | .running => [.waiting, .completed, .failed, .cancelled]
  | .waiting => [.running, .failed, .cancelled]
  | .failed => []
  | .completed => []
  | .cancelled => []

/-- `isValidTransition` of `src/transport/task-engine.ts`. -/
def isValidTransition (a b : TaskStatus) : Bool :=
  (VALID_TRANSITIONS a).contains b

/-- A status is terminal when it is `completed`, `failed` or `cancelled`;
the engine and the adapter both test for exactly these three. -/
def isTerminal (s : TaskStatus) : Bool :=
  s = .completed || s = .failed || s = .cancelled

/-- `TaskState` of `src/transport/types.ts`.  `Date` fields are `Nat` clock
values; the free-form `metadata` record is modelled as a string map. -/
structure TaskState where
  id : String
  status : TaskStatus
  agentId : Option String := none
  description : String
  sessionId : Option String := none
  parentTaskId : Option String := none
  createdAt : Nat
  startedAt : Option Nat := none
  completedAt : Option Nat := none
  output : Option String := none
  error : Option String := none
  progress : Option Int := none
  metadata : List (String × String) := []
deriving DecidableEq, Repr

/-- The five task-event kinds of `TaskEvent.event` in
`src/transport/task-engine.ts`. -/
inductive TaskEventKind where
  | created
  | status_changed
  | progress_updated
  | output_added
  | error_set
deriving DecidableEq, Repr

/-- The `data` payloads actually attached to events by the engine:
`{ progress }`, `{ outputLength }`, `{ error }`. -/
inductive TaskEventData where
  | progressData (p : Int)
  | outputLengthData (n : Nat)
  | errorData (e : String)
deriving DecidableEq, Repr

/-- `TaskEvent` of `src/transport/task-engine.ts`. -/
structure TaskEvent where
  taskId : String
  timestamp : Nat
  event : TaskEventKind
  oldStatus : Option TaskStatus := none
  newStatus : Option TaskStatus := none
  message : Option String := none
  data : Option TaskEventData := none
deriving DecidableEq, Repr

/-- Lookup in a JavaScript `Map` modelled as an association list (first
matching key wins; the engine never stores duplicate keys). -/
def mapGet {α : Type} : List (String × α) → String → Option α
  | [], _ => none
  | p :: rest, k => if p.1 = k then some p.2 else mapGet rest k

/-- `Map.set`: replace the first binding of the key in place, or append a new
binding at the end — JavaScript `Map` insertion-order semantics. -/
def mapSet {α : Type} : List (String × α) → String → α → List (String × α)
  | [], k, v => [(k, v)]
  | p :: rest, k, v => if p.1 = k then (k, v) :: rest else p :: mapSet rest k v

/-- `MemoryTaskStorage` of `src/transport/task-engine.ts`: a task map keyed by
task id and a per-task event-journal map. -/
structure MemoryTaskStorage where
  tasks : List (String × TaskState) := []
  events : List (String × List TaskEvent) := []
deriving DecidableEq, Repr

/-- `MemoryTaskStorage.save`: `this.tasks.set(task.id, {...task})`. -/
def saveTask (st : MemoryTaskStorage) (t : TaskState) : MemoryTaskStorage :=
  { st with tasks := mapSet st.tasks t.id t }

/-- `MemoryTaskStorage.load`: `this.tasks.get(taskId)` (copy semantics are
identity for pure values). -/
def loadTask (st : MemoryTaskStorage) (taskId : String) : Option TaskState :=
  mapGet st.tasks taskId

/-- `MemoryTaskStorage.saveEvent`: append the event to the journal list of its
task id. -/
def saveEvent (st : MemoryTaskStorage) (e : TaskEvent) : MemoryTaskStorage :=
  { st with events := mapSet st.events e.taskId ((mapGet st.events e.taskId).getD [] ++ [e]) }

/-- `MemoryTaskStorage.getEvents`. -/
def getEvents (st : MemoryTaskStorage) (taskId : String) : List TaskEvent :=
  (mapGet st.events taskId).getD []

/-- `TaskSubmitRequest` of `src/transport/types.ts`. -/
structure TaskSubmitRequest where
  agentId : Option String := none
  description : String
  input : String
  model : Option String := none
  thinking : Option String := none
  sessionId : Option String := none
  parentTaskId : Option String := none
  metadata : List (String × String) := []
deriving DecidableEq, Repr

/-- `DistributedTaskEngine.createTask`.  The fresh `crypto.randomUUID()` is the
explicit `id` argument; `new Date()` is `now`. -/
def createTask (st : MemoryTaskStorage) (req : TaskSubmitRequest) (id : String) (now : Nat) :
    TaskState × MemoryTaskStorage :=
  let task : TaskState :=
    { id := id, status := .pending, agentId := req.agentId, description := req.description,
      sessionId := req.sessionId, parentTaskId := req.parentTaskId, createdAt := now,
      metadata := req.metadata }
  let st1 := saveTask st task
  let st2 := saveEvent st1
    { taskId := id, timestamp := now, event := .created, newStatus := some .pending,
      message := some "Task created" }
  (task, st2)

/-- The message of the `Error` thrown by `updateTaskStatus` on an invalid
transition. -/
def invalidTransitionMsg (a b : TaskStatus) (taskId : String) : String :=
  "Invalid status transition from " ++ statusStr a ++ " to " ++ statusStr b ++
    " for task " ++ taskId

/-- The record mutation a legal `updateTaskStatus` performs on the loaded
task: set the status, set `startedAt` on entering `planning`/`running` if
still unset, set `completedAt` on entering a terminal status. -/
def applyStatusChange (task : TaskState) (newStatus : TaskStatus) (now : Nat) : TaskState :=
  let task1 := { task with status := newStatus }
  let task2 :=
    if newStatus = .planning || newStatus = .running then
      { task1 with startedAt := some (task1.startedAt.getD now) }
    else task1
  if newStatus = .completed || newStatus = .failed || newStatus = .cancelled then
    { task2 with completedAt := some now }
  else task2

/-- `DistributedTaskEngine.updateTaskStatus`: `null` for a missing task,
a thrown error (modelled as `Except.error`) on an invalid transition, otherwise
the status change with its timestamp side effects, saved and journaled. -/
def updateTaskStatus (st : MemoryTaskStorage) (taskId : String) (newStatus : TaskStatus)
    (now : Nat) : Except String (Option TaskState) × MemoryTaskStorage :=
  match loadTask st taskId with
  | none => (Except.ok none, st)
  | some task =>
    if !isValidTransition task.status newStatus then
      (Except.error (invalidTransitionMsg task.status newStatus taskId), st)
    else
      let oldStatus := task.status
      let task3 := applyStatusChange task newStatus now
      let st1 := saveTask st task3
      let st2 := saveEvent st1
        { taskId := taskId, timestamp := now, event := .status_changed,
          oldStatus := some oldStatus, newStatus := some newStatus,
          message := some ("Status changed from " ++ statusStr oldStatus ++ " to " ++
            statusStr newStatus) }
      (Except.ok (some task3), st2)

/-- `DistributedTaskEngine.updateTaskProgress`: `null` for a missing task,
otherwise clamp to [0,100], save and journal — there is no terminal-status
check in the source. -/
def updateTaskProgress (st : MemoryTaskStorage) (taskId : String) (progress : Int)
    (now : Nat) : Option TaskState × MemoryTaskStorage :=
  match loadTask st taskId with
  | none => (none, st)
  | some task =>
    let task1 := { task with progress := some (min 100 (max 0 progress)) }
    let st1 := saveTask st task1
    let st2 := saveEvent st1
      { taskId := taskId, timestamp := now, event := .progress_updated,
        data := some (.progressData progress) }
    (some task1, st2)

/-- `DistributedTaskEngine.setTaskOutput`: `null` for a missing task, otherwise
overwrite the output, save and journal — no terminal-status check in the
source. -/
def setTaskOutput (st : MemoryTaskStorage) (taskId : String) (output : String)
    (now : Nat) : Option TaskState × MemoryTaskStorage :=
  match loadTask st taskId with
  | none => (none, st)
  | some task =>
    let task1 := { task with output := some output }
    let st1 := saveTask st task1
    let st2 := saveEvent st1
      { taskId := taskId, timestamp := now, event := .output_added,
        data := some (.outputLengthData output.length) }
    (some task1, st2)

/-- `DistributedTaskEngine.setTaskError`: `null` for a missing task, otherwise
set the error string, force status to `failed` and set `completedAt` — with no
transition validation in the source. -/
def setTaskError (st : MemoryTaskStorage) (taskId : String) (error : String)
    (now : Nat) : Option TaskState × MemoryTaskStorage :=
  match loadTask st taskId with
  | none => (none, st)
  | some task =>
    let task1 := { task with error := some error, status := .failed, completedAt := some now }
    let st1 := saveTask st task1
    let st2 := saveEvent st1
      { taskId := taskId, timestamp := now, event := .error_set,
        newStatus := some .failed, data := some (.errorData error) }
    (some task1, st2)

/-- `DistributedTaskEngine.cancelTask`: `false` for a missing or terminal task,
otherwise transition to `cancelled` through `updateTaskStatus` and return
`true`. -/
def cancelTask (st : MemoryTaskStorage) (taskId : String) (now : Nat) :
    Bool × MemoryTaskStorage :=
  match loadTask st taskId with
  | none => (false, st)
  | some task =>
    if isTerminal task.status then
      (false, st)
    else
      (true, (updateTaskStatus st taskId .cancelled now).2)

/-! ## Orchestrator (`src/coderclaw/orchestrator-enhanced.ts`) -/

/-- `Task` of `src/coderclaw/orchestrator-enhanced.ts` (the orchestrator's own
task record, distinct from the transport `TaskState`). -/
structure OrchTask where
  id : String
  description : String
  agentRole : String
  status : TaskStatus
  input : String
  output : Option String := none
  error : Option String := none
  childSessionKey : Option String := none
  createdAt : Nat
  startedAt : Option Nat := none
  completedAt : Option Nat := none
  dependencies : List String
  dependents : List String
deriving DecidableEq, Repr

/-- `WorkflowStep` of `src/coderclaw/orchestrator-enhanced.ts`. -/
structure WorkflowStep where
  role : String
  task : String
  dependsOn : Option (List String) := none
deriving DecidableEq, Repr

/-- `Workflow` of `src/coderclaw/orchestrator-enhanced.ts`; the `tasks` map is
an insertion-ordered association list keyed by task id. -/
structure Workflow where
  id : String
  steps : List WorkflowStep
  tasks : List (String × OrchTask)
  status : TaskStatus
deriving DecidableEq, Repr

/-- `steps.findIndex((s) => s.task === depStepTask)` — dependency descriptions
resolve against step task descriptions by string equality, over the whole step
list. -/
def findStepIdx (steps : List WorkflowStep) (name : String) : Option Nat :=
  steps.findIdx? (fun s => s.task = name)

/-- The dependency list built for one step by `createWorkflow`: each entry of
`dependsOn` that matches some step's description contributes that step's task
id (non-matching names are silently dropped, duplicates are kept). -/
def resolvedDeps (steps : List WorkflowStep) (gen : Nat → String) (s : WorkflowStep) :
    List String :=
  (s.dependsOn.getD []).filterMap (fun name => (findStepIdx steps name).map gen)

/-- `if (!depTask.dependents.includes(taskId)) depTask.dependents.push(taskId)`. -/
def pushUnlessMember (l : List String) (x : String) : List String :=
  if l.contains x then l else l ++ [x]

/-- The dependents list `createWorkflow` accumulates on the task of step `j`:
the double loop over steps `i` and their `dependsOn` names pushes step `i`'s
task id whenever the name resolves to step `j`, skipping ids already present. -/
def dependentsOf (steps : List WorkflowStep) (gen : Nat → String) (j : Nat) : List String :=
  (List.range steps.length).foldl
    (fun acc i =>
      (((steps.get? i).map (fun s => s.dependsOn.getD [])).getD []).foldl
        (fun acc2 name => if findStepIdx steps name = some j then pushUnlessMember acc2 (gen i)
          else acc2)
        acc)
    []

/-- `EnhancedAgentOrchestrator.createWorkflow`.  The workflow UUID is the
explicit `wfId`, the per-step task UUIDs are `gen 0`, `gen 1`, ….  The source
performs no acyclicity check and has no failure path: it builds one `pending`
task per step, resolves dependency descriptions by description string, and
returns the workflow.  (The orchestrator's parallel `workflowDependencies`
bookkeeping map, which mirrors `dependencies`/`dependents` and is read by no
claimed operation, is not modelled.) -/
def createWorkflow (wfId : String) (gen : Nat → String) (steps : List WorkflowStep)
    (now : Nat) : Workflow :=
  { id := wfId, steps := steps, status := .pending,
    tasks := steps.enum.map (fun p =>
      (gen p.1,
        { id := gen p.1, description := p.2.task, agentRole := p.2.role, status := .pending,
          input := p.2.task, createdAt := now,
          dependencies := resolvedDeps steps gen p.2,
          dependents := dependentsOf steps gen p.1 })) }

/-- The orchestrator state: `this.workflows` (the `taskResults` cache is not
touched by the claimed operations). -/
structure Orchestrator where
  workflows : List (String × Workflow) := []
deriving DecidableEq, Repr

/-- `createWorkflow` followed by `this.workflows.set(id, workflow)`. -/
def createWorkflowOrch (o : Orchestrator) (wfId : String) (gen : Nat → String)
    (steps : List WorkflowStep) (now : Nat) : Workflow × Orchestrator :=
  let w := createWorkflow wfId gen steps now
  (w, { o with workflows := mapSet o.workflows w.id w })

/-- The per-task effect of `cancelWorkflow`: only tasks whose status is
`pending` or `running` are set to `cancelled`; every other status (including
`planning` and `waiting`) is left as is. -/
def cancelWorkflowEntry (p : String × OrchTask) : String × OrchTask :=
  if p.2.status = .pending || p.2.status = .running then
    (p.1, { p.2 with status := .cancelled })
  else p

/-- `EnhancedAgentOrchestrator.cancelWorkflow`: set the workflow status to
`cancelled` and cancel its `pending`/`running` tasks; a missing workflow id is
a no-op. -/
def cancelWorkflow (o : Orchestrator) (wfId : String) : Orchestrator :=
  match mapGet o.workflows wfId with
  | none => o
  | some w =>
    let wC : Workflow :=
      { w with status := .cancelled, tasks := w.tasks.map cancelWorkflowEntry }
    { o with workflows := mapSet o.workflows wfId wC }

/-! ## Security service (`src/security/types.ts`, `src/security/service.ts`) -/

/-- The closed permission vocabulary of `src/security/types.ts`. -/
inductive Permission where
  | taskSubmit
  | taskRead
  | taskCancel
  | agentInvoke
  | skillExecute
  | configRead
  | configWrite
  | adminAll
deriving DecidableEq, Repr

/-- The literal permission strings. -/
def permStr : Permission → String
  | .taskSubmit => "task:submit"
  | .taskRead => "task:read"
  | .taskCancel => "task:cancel"
  | .agentInvoke => "agent:invoke"
  | .skillExecute => "skill:execute"
  | .configRead => "config:read"
  | .configWrite => "config:write"
  | .adminAll => "admin:all"

/-- `DeviceTrustLevel` of `src/security/types.ts`. -/
inductive DeviceTrustLevel where
  | trusted
  | verified
  | untrusted
deriving DecidableEq, Repr

/-- `DeviceInfo` (fields not read by the claimed checks are kept as plain
strings). -/
structure DeviceInfo where
  id : String
  name : String
  deviceType : String
  trustLevel : DeviceTrustLevel
  lastSeen : Nat
deriving DecidableEq, Repr

/-- `UserIdentity` (provider kept as its literal string). -/
structure UserIdentity where
  id : String
  provider : String
  email : Option String := none
  name : Option String := none
  verified : Bool
deriving DecidableEq, Repr

/-- `SessionPermissions` of `src/security/types.ts`. -/
structure SessionPermissions where
  sessionId : String
  userId : String
  deviceId : String
  roles : List String
  grantedAt : Nat
  expiresAt : Option Nat := none
  scope : Option (List String) := none
deriving DecidableEq, Repr

/-- `SecurityContext` of `src/security/types.ts`. -/
structure SecurityContext where
  user : Option UserIdentity := none
  device : Option DeviceInfo := none
  session : SessionPermissions
  effectivePermissions : List Permission
deriving DecidableEq, Repr

/-- `PolicyCheckResult` of `src/security/types.ts`. -/
structure PolicyCheckResult where
  allowed : Bool
  reason : Option String := none
  requiredPermissions : Option (List Permission) := none
  missingPermissions : Option (List Permission) := none
deriving DecidableEq, Repr

/-- `AgentAuthorization` of `src/security/types.ts`. -/
structure AgentAuthorization where
  agentId : String
  allowedRoles : List String
  deniedRoles : List String
  requireDeviceTrust : Option DeviceTrustLevel := none
deriving DecidableEq, Repr

/-- `SkillPrivileges` of `src/security/types.ts`. -/
structure SkillPrivileges where
  skillId : String
  requiredPermissions : List Permission
  allowedRoles : List String
  trustLevel : Option DeviceTrustLevel := none
  dangerous : Bool
  description : String
deriving DecidableEq, Repr

/-- `RepoPolicy` of `src/security/types.ts`. -/
structure RepoPolicy where
  repoPath : String
  enforceTrust : Bool
  minimumTrustLevel : DeviceTrustLevel
  allowedRoles : List String
  deniedUsers : Option (List String) := none
  allowedUsers : Option (List String) := none
  agentPolicies : List AgentAuthorization
  skillPolicies : List SkillPrivileges
deriving DecidableEq, Repr

/-- `BasicSecurityService.checkPermission`: allow on `admin:all`, otherwise
allow iff the specific permission is in the effective set, otherwise deny
naming the missing permission.  The source reads nothing but
`context.effectivePermissions` — in particular it never consults
`session.expiresAt` (the unused `resource` parameter is likewise dropped
here). -/
def checkPermission (context : SecurityContext) (permission : Permission) :
    PolicyCheckResult :=
  if context.effectivePermissions.contains .adminAll then
    { allowed := true }
  else if context.effectivePermissions.contains permission then
    { allowed := true }
  else
    { allowed := false,
      reason := some ("Missing required permission: " ++ permStr permission),
      requiredPermissions := some [permission],
      missingPermissions := some [permission] }

/-- `BasicSecurityService.checkAgentAccess`; `policies` is the service's
`repoPolicies` map.  Steps: (1) `checkPermission(ctx, agent:invoke)`;
(2) look up the repo policy of the first scope entry when the scope is
non-empty; (3) deny when no session role is among the agent policy's allowed
roles; (4) the device-trust comparison of the source only recognizes a
required level of `trusted` — a required level of `verified` falls through to
allow. -/
def checkAgentAccess (policies : List (String × RepoPolicy)) (context : SecurityContext)
    (agentId : String) : PolicyCheckResult :=
  let permissionCheck := checkPermission context .agentInvoke
  if !permissionCheck.allowed then permissionCheck
  else
    match context.session.scope with
    | some (repoPath :: _) =>
      match mapGet policies repoPath with
      | some repoPolicy =>
        match repoPolicy.agentPolicies.find? (fun p => p.agentId = agentId) with
        | some agentPolicy =>
          if !(context.session.roles.any (fun role => agentPolicy.allowedRoles.contains role))
          then
            { allowed := false,
              reason := some ("Agent " ++ agentId ++ " requires one of roles: " ++
                String.intercalate ", " agentPolicy.allowedRoles) }
          else
            match agentPolicy.requireDeviceTrust, context.device with
            | some req, some device =>
              if req = .trusted && device.trustLevel != .trusted then
                { allowed := false,
                  reason := some ("Agent " ++ agentId ++ " requires trusted device") }
              else { allowed := true }
            | _, _ => { allowed := true }
        | none => { allowed := true }
      | none => { allowed := true }
    | _ => { allowed := true }

/-! ## Remote transport adapter (`src/transport/clawlink-adapter.ts`) -/

/-- `ClawLinkTaskStateResponse`: the fields of the polled remote task state
read by `streamTaskUpdates`. -/
structure ClawLinkTaskStateResponse where
  task_id : String
  execution_uuid : String
  state : TaskStatus
  success : Bool
  result : Option String := none
  error : Option String := none
deriving DecidableEq, Repr

/-- `TaskUpdateEvent` of `src/transport/types.ts` as yielded by the adapter
(its `new Date()` timestamp is real-clock noise and is not modelled). -/
structure TaskUpdateEvent where
  taskId : String
  status : TaskStatus
  message : Option String := none
  progress : Option Nat := none
deriving DecidableEq, Repr

/-- The update object yielded for one poll response: `progress = 100` is
synthesized exactly when the observed state is `completed`. -/
def pollUpdate (taskId : String) (raw : ClawLinkTaskStateResponse) : TaskUpdateEvent :=
  { taskId := taskId, status := raw.state, message := raw.error,
    progress := if raw.state = .completed then some 100 else none }

/-- `ClawLinkTransportAdapter.streamTaskUpdates` over an explicit list of poll
responses: yield when the polled state differs from the last observed one
(`last` starts at `pending`), stop after the poll whose state is terminal. -/
def streamTaskUpdates (taskId : String) (last : TaskStatus) :
    List ClawLinkTaskStateResponse → List TaskUpdateEvent
  | [] => []
  | raw :: rest =>
    if raw.state ≠ last then
      if isTerminal raw.state then [pollUpdate taskId raw]
      else pollUpdate taskId raw :: streamTaskUpdates taskId raw.state rest
    else
      if isTerminal raw.state then []
      else streamTaskUpdates taskId last rest

/-- The stream as started by the adapter: `let last: TaskStatus = "pending"`. -/
def streamFromStart (taskId : String) (polls : List ClawLinkTaskStateResponse) :
    List TaskUpdateEvent :=
  streamTaskUpdates taskId .pending polls

/-! ## Auxiliary predicates and concrete fixtures -/

/-- Storage key discipline: every stored task sits under its own id — true of
every storage the engine builds, since `save` keys by `task.id`. -/
def wellKeyed (st : MemoryTaskStorage) : Bool :=
  st.tasks.all (fun p => p.2.id == p.1)

/-- One application of an engine mutation other than `setTaskError`:
`updateTaskStatus`, `updateTaskProgress`, `setTaskOutput` or `cancelTask`. -/
inductive SafeEngineStep : MemoryTaskStorage → MemoryTaskStorage → Prop where
  | statusStep (st : MemoryTaskStorage) (id : String) (ns : TaskStatus) (now : Nat) :
      SafeEngineStep st (updateTaskStatus st id ns now).2
  | progressStep (st : MemoryTaskStorage) (id : String) (p : Int) (now : Nat) :
      SafeEngineStep st (updateTaskProgress st id p now).2
  | outputStep (st : MemoryTaskStorage) (id : String) (o : String) (now : Nat) :
      SafeEngineStep st (setTaskOutput st id o now).2
  | cancelStep (st : MemoryTaskStorage) (id : String) (now : Nat) :
      SafeEngineStep st (cancelTask st id now).2

/-- The spec's reading of §4.6 streaming: the statuses yielded are exactly the
polled statuses that differ from the previously observed one (starting from
`last`), truncated at — and including — the first terminal poll. -/
def specObservedStatuses (last : TaskStatus) : List TaskStatus → List TaskStatus
  | [] => []
  | s :: rest =>
    if s = last then (if isTerminal s then [] else specObservedStatuses last rest)
    else if isTerminal s then [s]
    else s :: specObservedStatuses s rest

/-- Ordering of device trust levels by how trusted they are, following the
spec's "strictly less trusted" wording (`trusted` > `verified` >
`untrusted`). -/
def trustLevelRank : DeviceTrustLevel → Nat
  | .trusted => 2
  | .verified => 1
  | .untrusted => 0

/-- An empty in-memory storage, as built by `new MemoryTaskStorage()`. -/
def emptyStorage : MemoryTaskStorage := {}

/-- The submit request used throughout the engine's own test-suite. -/
def reqTest : TaskSubmitRequest := { description := "Test", input := "Test" }

/-- Storage holding the single fresh task `"t"` right after `createTask`. -/
def storageT : MemoryTaskStorage := (createTask emptyStorage reqTest "t" 0).2

/-- The fresh task `"t"` as `createTask` returns it. -/
def taskT : TaskState := (createTask emptyStorage reqTest "t" 0).1

/-- `storageT` after the legal chain `pending → planning → running →
completed`. -/
def storageTCompleted : MemoryTaskStorage :=
  (updateTaskStatus
    (updateTaskStatus
      (updateTaskStatus storageT "t" .planning 1).2 "t" .running 2).2 "t" .completed 3).2

/-- A task already in the terminal `completed` status. -/
def completedTask : TaskState :=
  { id := "t", status := .completed, description := "Test", createdAt := 0,
    completedAt := some 3 }

/-- Storage holding only `completedTask`. -/
def storageDone : MemoryTaskStorage := { tasks := [("t", completedTask)] }

/-- The cyclic two-step workflow of spec scenario S2: `X` depends on `Y`,
`Y` depends on `X`. -/
def stepsC2 : List WorkflowStep :=
  [{ role := "code-creator", task := "X", dependsOn := some ["Y"] },
   { role := "code-creator", task := "Y", dependsOn := some ["X"] }]

/-- Deterministic stand-in for the per-step `crypto.randomUUID()` calls. -/
def genT : Nat → String := fun i => "t" ++ toString i

/-- The workflow `createWorkflow` builds from the cyclic steps. -/
def wfC2 : Workflow := createWorkflow "w" genT stepsC2 0

/-- An orchestrator task sitting in the `planning` status. -/
def planningTaskC6 : OrchTask :=
  { id := "t", description := "A", agentRole := "code-creator", status := .planning,
    input := "A", createdAt := 0, dependencies := [], dependents := [] }

/-- A running workflow owning one `planning` task. -/
def wfC6 : Workflow := { id := "w", steps := [], tasks := [("t", planningTaskC6)], status := .running }

/-- Orchestrator holding `wfC6`. -/
def orchC6 : Orchestrator := { workflows := [("w", wfC6)] }

/-- A session that expired at time 0. -/
def sessionC3 : SessionPermissions :=
  { sessionId := "s", userId := "u", deviceId := "d", roles := ["developer"],
    grantedAt := 0, expiresAt := some 0 }

/-- A context over the expired session whose effective set still holds
`task:submit`. -/
def ctxC3 : SecurityContext := { session := sessionC3, effectivePermissions := [.taskSubmit] }

/-- An agent policy requiring a `verified` device. -/
def apC7 : AgentAuthorization :=
  { agentId := "a", allowedRoles := ["developer"], deniedRoles := [],
    requireDeviceTrust := some .verified }

/-- A repo policy carrying `apC7`. -/
def polC7 : RepoPolicy :=
  { repoPath := "/repo", enforceTrust := true, minimumTrustLevel := .verified,
    allowedRoles := ["developer"], agentPolicies := [apC7], skillPolicies := [] }

/-- An `untrusted` device. -/
def devC7 : DeviceInfo :=
  { id := "d", name := "D", deviceType := "desktop", trustLevel := .untrusted, lastSeen := 0 }

/-- A live session with the `developer` role scoped to `/repo`. -/
def sessionC7 : SessionPermissions :=
  { sessionId := "s", userId := "u", deviceId := "d", roles := ["developer"],
    grantedAt := 0, scope := some ["/repo"] }

/-- A context on the untrusted device, scoped to `/repo`, holding
`agent:invoke` with the `developer` role. -/
def ctxC7 : SecurityContext :=
  { device := some devC7, session := sessionC7, effectivePermissions := [.agentInvoke] }

/-- A live session with the `readonly` role. -/
def sessionReadonly : SessionPermissions :=
  { sessionId := "s", userId := "u", deviceId := "d", roles := ["readonly"], grantedAt := 0 }

/-- A context holding only the `readonly`-style permissions. -/
def ctxReadonly : SecurityContext :=
  { session := sessionReadonly, effectivePermissions := [.taskRead, .configRead] }

/-- A live session with the `admin` role. -/
def sessionAdmin : SessionPermissions :=
  { sessionId := "s", userId := "u", deviceId := "d", roles := ["admin"], grantedAt := 0 }

/-- A context whose effective set holds `admin:all`. -/
def ctxAdmin : SecurityContext :=
  { session := sessionAdmin, effectivePermissions := [.adminAll] }

/-- A poll response of the fake remote in spec scenario S6. -/
def s6poll (s : TaskStatus) : ClawLinkTaskStateResponse :=
  { task_id := "t", execution_uuid := "e", state := s, success := isTerminal s }

/-- The S6 fake-remote poll sequence: `pending`, `pending`, `running`,
`completed`. -/
def s6Polls : List ClawLinkTaskStateResponse :=
  [s6poll .pending, s6poll .pending, s6poll .running, s6poll .completed]

/-! ## Shared lemmas -/

theorem mapGet_mapSet_self {α : Type} (m : List (String × α)) (k : String) (v : α) :
    mapGet (mapSet m k v) k = some v := by
  induction m with
  | nil => simp [mapGet, mapSet]
  | cons p rest ih =>
    by_cases h : p.1 = k
    · simp [mapSet, h, mapGet]
    · simp [mapSet, h, mapGet, ih]

theorem mapGet_mapSet_ne {α : Type} (m : List (String × α)) (k k2 : String) (v : α)
    (h : k2 ≠ k) : mapGet (mapSet m k v) k2 = mapGet m k2 := by
  have hk : k ≠ k2 := fun he => h he.symm
  induction m with
  | nil => simp [mapGet, mapSet, hk]
  | cons p rest ih =>
    by_cases hp : p.1 = k
    · have hp2 : p.1 ≠ k2 := by rw [hp]; exact hk
      simp [mapSet, hp, mapGet, hk, hp2]
    · by_cases hq : p.1 = k2
      · simp [mapSet, hp, mapGet, hq, h]
      · simp [mapSet, hp, mapGet, hq, ih]

theorem loadTask_saveEvent (st : MemoryTaskStorage) (e : TaskEvent) (id : String) :
    loadTask (saveEvent st e) id = loadTask st id := rfl

theorem loadTask_saveTask_self (st : MemoryTaskStorage) (t : TaskState) :
    loadTask (saveTask st t) t.id = some t :=
  mapGet_mapSet_self st.tasks t.id t

theorem loadTask_saveTask_ne (st : MemoryTaskStorage) (t : TaskState) (id : String)
    (h : id ≠ t.id) : loadTask (saveTask st t) id = loadTask st id :=
  mapGet_mapSet_ne st.tasks t.id id t h

theorem mapGet_keyed {m : List (String × TaskState)} {k : String} {u : TaskState}
    (h : m.all (fun p => p.2.id == p.1) = true) (hl : mapGet m k = some u) : u.id = k := by
  induction m with
  | nil => simp [mapGet] at hl
  | cons p rest ih =>
    simp only [List.all_cons, Bool.and_eq_true, beq_iff_eq] at h
    by_cases hpk : p.1 = k
    · simp only [mapGet, if_pos hpk] at hl
      cases hl
      exact h.1.trans hpk
    · simp only [mapGet, if_neg hpk] at hl
      exact ih h.2 hl

theorem wellKeyed_loadTask {st : MemoryTaskStorage} {k : String} {u : TaskState}
    (h : wellKeyed st = true) (hl : loadTask st k = some u) : u.id = k :=
  mapGet_keyed h hl

theorem mapGet_mapSet {α : Type} (m : List (String × α)) (key k : String) (v : α) :
    mapGet (mapSet m key v) k = if key = k then some v else mapGet m k := by
  by_cases h : key = k
  · subst h; simp [mapGet_mapSet_self]
  · simp [h, mapGet_mapSet_ne m key k v (fun he => h he.symm)]

theorem loadTask_saveTask (st : MemoryTaskStorage) (t : TaskState) (k : String) :
    loadTask (saveTask st t) k = if t.id = k then some t else loadTask st k :=
  mapGet_mapSet st.tasks t.id k t

theorem applyStatusChange_id (t : TaskState) (ns : TaskStatus) (now : Nat) :
    (applyStatusChange t ns now).id = t.id := by
  simp only [applyStatusChange]
  split <;> split <;> rfl

theorem applyStatusChange_status (t : TaskState) (ns : TaskStatus) (now : Nat) :
    (applyStatusChange t ns now).status = ns := by
  simp only [applyStatusChange]
  split <;> split <;> rfl

theorem nonterminal_to_cancelled (s : TaskStatus) :
    isTerminal s = false → isValidTransition s .cancelled = true := by
  cases s <;> decide

/-! ## Claim theorems -/

/-- C10: on a task id with no stored task, `updateTaskStatus`,
`updateTaskProgress`, `setTaskOutput` and `setTaskError` each return `null`
without raising, `cancelTask` returns `false`, and in every case the storage
— task records and event journal alike — is left exactly as it was. -/
theorem missing_task_mutations_are_noops (st : MemoryTaskStorage) (id : String)
    (ns : TaskStatus) (p : Int) (o e : String) (now : Nat)
    (h : loadTask st id = none) :
    updateTaskStatus st id ns now = (Except.ok none, st) ∧
    updateTaskProgress st id p now = (none, st) ∧
    setTaskOutput st id o now = (none, st) ∧
    setTaskError st id e now = (none, st) ∧
    cancelTask st id now = (false, st) := by
  refine ⟨?_, ?_, ?_, ?_, ?_⟩ <;>
    simp [updateTaskStatus, updateTaskProgress, setTaskOutput, setTaskError, cancelTask, h]

/-- Witness for C10 at the empty storage and id `"x"`. -/
theorem missing_task_mutations_are_noops_witness :
    updateTaskStatus emptyStorage "x" .planning 0 = (Except.ok none, emptyStorage) ∧
    updateTaskProgress emptyStorage "x" 50 0 = (none, emptyStorage) ∧
    setTaskOutput emptyStorage "x" "o" 0 = (none, emptyStorage) ∧
    setTaskError emptyStorage "x" "e" 0 = (none, emptyStorage) ∧
    cancelTask emptyStorage "x" 0 = (false, emptyStorage) :=
  missing_task_mutations_are_noops emptyStorage "x" .planning 50 "o" "e" 0 rfl

/-- C4: a requested status not reachable from the stored task's current status
makes `updateTaskStatus` fail with the invalid-transition error, leaving the
whole storage — the task record and the event journal — unchanged. -/
theorem invalid_transition_rejected (st : MemoryTaskStorage) (id : String) (t : TaskState)
    (ns : TaskStatus) (now : Nat)
    (h : loadTask st id = some t) (hv : isValidTransition t.status ns = false) :
    updateTaskStatus st id ns now = (Except.error (invalidTransitionMsg t.status ns id), st) := by
  simp [updateTaskStatus, h, hv]

/-- Witness for C4: `updateStatus(id, completed)` directly from `pending`. -/
theorem invalid_transition_rejected_witness :
    updateTaskStatus storageT "t" .completed 1 =
      (Except.error (invalidTransitionMsg .pending .completed "t"), storageT) :=
  invalid_transition_rejected storageT "t" taskT .completed 1 rfl rfl

/-- C5 counterexample: on a task driven to the terminal `completed` status by
legal transitions, `updateTaskProgress` is not rejected — it stores the new
progress — and `setTaskOutput` overwrites the output; no `TerminalImmutable`
failure exists in the code. -/
theorem terminal_task_mutation_not_rejected :
    (loadTask storageTCompleted "t").map TaskState.status = some .completed ∧
    ((updateTaskProgress storageTCompleted "t" 50 4).1).map TaskState.progress =
      some (some 50) ∧
    (loadTask (updateTaskProgress storageTCompleted "t" 50 4).2 "t").map TaskState.progress =
      some (some 50) ∧
    ((setTaskOutput storageTCompleted "t" "late" 4).1).map TaskState.output =
      some (some "late") := by
  decide

/-- C5 (amended): `updateTaskProgress` clamps the value to [0,100] and stores
it without touching any other field, and `setTaskOutput` overwrites the output
string, on every stored task — terminal tasks included; neither operation is
ever rejected (the code has no `TerminalImmutable` check). -/
theorem progress_and_output_apply_to_any_stored_task (st : MemoryTaskStorage) (id : String)
    (t : TaskState) (p : Int) (o : String) (now : Nat)
    (h : loadTask st id = some t) (hid : t.id = id) :
    (updateTaskProgress st id p now).1 =
      some { t with progress := some (min 100 (max 0 p)) } ∧
    loadTask (updateTaskProgress st id p now).2 id =
      some { t with progress := some (min 100 (max 0 p)) } ∧
    (0 : Int) ≤ min 100 (max 0 p) ∧ min 100 (max 0 p) ≤ 100 ∧
    (setTaskOutput st id o now).1 = some { t with output := some o } ∧
    loadTask (setTaskOutput st id o now).2 id = some { t with output := some o } := by
  subst hid
  refine ⟨?_, ?_, ?_, ?_, ?_, ?_⟩
  · simp [updateTaskProgress, h]
  · simp only [updateTaskProgress, h]
    rw [loadTask_saveEvent, loadTask_saveTask]
    simp
  · exact le_min (by norm_num) (le_max_left 0 p)
  · exact min_le_left 100 (max 0 p)
  · simp [setTaskOutput, h]
  · simp only [setTaskOutput, h]
    rw [loadTask_saveEvent, loadTask_saveTask]
    simp

theorem updateTaskStatus_step_respects_graph (st : MemoryTaskStorage) (id : String)
    (ns : TaskStatus) (now : Nat) (hw : wellKeyed st = true) (k : String) (t t2 : TaskState)
    (h1 : loadTask st k = some t)
    (h2 : loadTask (updateTaskStatus st id ns now).2 k = some t2) :
    t2.status = t.status ∨ isValidTransition t.status t2.status = true := by
  cases hload : loadTask st id with
  | none =>
    simp only [updateTaskStatus, hload] at h2
    rw [h1] at h2
    cases h2
    exact Or.inl rfl
  | some u =>
    have hu : u.id = id := wellKeyed_loadTask hw hload
    cases hv : isValidTransition u.status ns with
    | false =>
      simp only [updateTaskStatus, hload, hv, Bool.not_false, if_pos] at h2
      rw [h1] at h2
      cases h2
      exact Or.inl rfl
    | true =>
      simp only [updateTaskStatus, hload, hv, Bool.not_true, Bool.false_eq_true,
        if_false] at h2
      rw [loadTask_saveEvent, loadTask_saveTask] at h2
      by_cases hk : (applyStatusChange u ns now).id = k
      · rw [if_pos hk] at h2
        cases h2
        have htu : t = u := by
          rw [applyStatusChange_id, hu] at hk
          rw [← hk, hload] at h1
          cases h1
          rfl
        rw [applyStatusChange_status, htu]
        exact Or.inr hv
      · rw [if_neg hk, h1] at h2
        cases h2
        exact Or.inl rfl

/-- C1 (amended): every engine mutation other than `setTaskError` — namely
`updateTaskStatus`, `updateTaskProgress`, `setTaskOutput` and `cancelTask` —
either leaves a stored task's status unchanged or moves it along an edge of
the §4.3 transition graph; since terminal statuses have no outgoing edges,
these four operations never move a task out of a terminal status, and every
status sequence they produce from `pending` is a path in the graph.
`setTaskError`, excluded here, forces `failed` without validation (see the
counterexample). -/
theorem safe_engine_step_respects_graph (st st2 : MemoryTaskStorage)
    (hstep : SafeEngineStep st st2) (hw : wellKeyed st = true)
    (k : String) (t t2 : TaskState)
    (h1 : loadTask st k = some t) (h2 : loadTask st2 k = some t2) :
    t2.status = t.status ∨ isValidTransition t.status t2.status = true := by
  cases hstep with
  | statusStep id ns now =>
    exact updateTaskStatus_step_respects_graph st id ns now hw k t t2 h1 h2
  | progressStep id p now =>
    left
    cases hload : loadTask st id with
    | none =>
      simp only [updateTaskProgress, hload] at h2
      rw [h1] at h2
      cases h2
      rfl
    | some u =>
      simp only [updateTaskProgress, hload] at h2
      rw [loadTask_saveEvent, loadTask_saveTask] at h2
      by_cases hk : ({ u with progress := some (min 100 (max 0 p)) } : TaskState).id = k
      · rw [if_pos hk] at h2
        cases h2
        have htu : t = u := by
          rw [show ({ u with progress := some (min 100 (max 0 p)) } : TaskState).id = u.id
              from rfl, wellKeyed_loadTask hw hload] at hk
          rw [← hk, hload] at h1
          cases h1
          rfl
        rw [htu]
      · rw [if_neg hk, h1] at h2
        cases h2
        rfl
  | outputStep id o now =>
    left
    cases hload : loadTask st id with
    | none =>
      simp only [setTaskOutput, hload] at h2
      rw [h1] at h2
      cases h2
      rfl
    | some u =>
      simp only [setTaskOutput, hload] at h2
      rw [loadTask_saveEvent, loadTask_saveTask] at h2
      by_cases hk : ({ u with output := some o } : TaskState).id = k
      · rw [if_pos hk] at h2
        cases h2
        have htu : t = u := by
          rw [show ({ u with output := some o } : TaskState).id = u.id from rfl,
            wellKeyed_loadTask hw hload] at hk
          rw [← hk, hload] at h1
          cases h1
          rfl
        rw [htu]
      · rw [if_neg hk, h1] at h2
        cases h2
        rfl
  | cancelStep id now =>
    cases hload : loadTask st id with
    | none =>
      simp only [cancelTask, hload] at h2
      rw [h1] at h2
      cases h2
      exact Or.inl rfl
    | some u =>
      cases hterm : isTerminal u.status with
      | true =>
        simp only [cancelTask, hload, hterm, if_pos] at h2
        rw [h1] at h2
        cases h2
        exact Or.inl rfl
      | false =>
        simp only [cancelTask, hload, hterm, Bool.false_eq_true, if_false] at h2
        exact updateTaskStatus_step_respects_graph st id .cancelled now hw k t t2 h1 h2

/-- C1 counterexample: `setTaskError` moves a freshly created `pending` task
directly to `failed` even though `pending → failed` is not an edge of the §4.3
graph, and moves a task that legally reached the terminal `completed` status
back out of it to `failed`. -/
theorem set_error_escapes_transition_graph :
    (loadTask (setTaskError storageT "t" "boom" 1).2 "t").map TaskState.status =
      some .failed ∧
    isValidTransition .pending .failed = false ∧
    (loadTask (setTaskError storageTCompleted "t" "boom" 4).2 "t").map TaskState.status =
      some .failed ∧
    isTerminal .completed = true := by
  decide

/-- Witness for C1 (amended): one `updateTaskStatus` step on the fresh pending
task `"t"`. -/
theorem safe_engine_step_respects_graph_witness :
    TaskState.status { taskT with status := .planning, startedAt := some 1 } =
        taskT.status ∨
      isValidTransition taskT.status
        (TaskState.status { taskT with status := .planning, startedAt := some 1 }) = true :=
  safe_engine_step_respects_graph storageT (updateTaskStatus storageT "t" .planning 1).2
    (SafeEngineStep.statusStep storageT "t" .planning 1) rfl "t" taskT
    { taskT with status := .planning, startedAt := some 1 } rfl (by decide)

/-- Witness for C5 (amended) on a terminal task with an out-of-range progress
value. -/
theorem progress_and_output_apply_witness :
    (updateTaskProgress storageDone "t" 150 4).1 =
      some { completedTask with progress := some (min 100 (max 0 (150 : Int))) } ∧
    loadTask (updateTaskProgress storageDone "t" 150 4).2 "t" =
      some { completedTask with progress := some (min 100 (max 0 (150 : Int))) } ∧
    (0 : Int) ≤ min 100 (max 0 (150 : Int)) ∧ min 100 (max 0 (150 : Int)) ≤ 100 ∧
    (setTaskOutput storageDone "t" "late" 4).1 =
      some { completedTask with output := some "late" } ∧
    loadTask (setTaskOutput storageDone "t" "late" 4).2 "t" =
      some { completedTask with output := some "late" } :=
  progress_and_output_apply_to_any_stored_task storageDone "t" completedTask 150 "late" 4
    rfl rfl

/-- C2 counterexample: on the cyclic step list `X ↔ Y` of scenario S2,
`createWorkflow` does not fail — it creates both tasks with mutually
referential dependency sets and stores the workflow; no `WorkflowCyclic`
failure exists in the code. -/
theorem cyclic_workflow_not_rejected :
    wfC2.tasks.length = 2 ∧
    (mapGet wfC2.tasks "t0").map OrchTask.dependencies = some ["t1"] ∧
    (mapGet wfC2.tasks "t1").map OrchTask.dependencies = some ["t0"] ∧
    (createWorkflowOrch { workflows := [] } "w" genT stepsC2 0).2.workflows =
      [("w", wfC2)] ∧
    wfC2.status = .pending := by
  decide

/-- C2 (amended): `createWorkflow` performs no acyclicity check and has no
failure path at all: for every step list — cyclic or not — it builds one
`pending` task per step, stores the workflow under its id, and returns it;
cycles surface only at execution time through the workflow-stuck safety
net. -/
theorem create_workflow_always_stores (o : Orchestrator) (wfId : String)
    (gen : Nat → String) (steps : List WorkflowStep) (now : Nat) :
    mapGet (createWorkflowOrch o wfId gen steps now).2.workflows wfId =
      some (createWorkflowOrch o wfId gen steps now).1 ∧
    (createWorkflowOrch o wfId gen steps now).1.tasks.length = steps.length ∧
    (createWorkflowOrch o wfId gen steps now).1.status = .pending ∧
    (createWorkflowOrch o wfId gen steps now).1.steps = steps := by
  refine ⟨?_, ?_, rfl, rfl⟩
  · exact mapGet_mapSet_self ..
  · simp [createWorkflowOrch, createWorkflow]

/-- C6 counterexample: `cancelWorkflow` marks the workflow `cancelled` but
leaves its `planning` task — a non-terminal status — untouched instead of
cancelling it. -/
theorem cancel_workflow_skips_planning :
    (mapGet (cancelWorkflow orchC6 "w").workflows "w").map Workflow.status =
      some .cancelled ∧
    ((mapGet (cancelWorkflow orchC6 "w").workflows "w").bind
        (fun w => mapGet w.tasks "t")).map OrchTask.status = some .planning ∧
    isTerminal .planning = false := by
  decide

/-- C6 (amended): `cancelWorkflow` sets the workflow's status to `cancelled`
and transitions exactly the tasks whose status is `pending` or `running` to
`cancelled`; tasks in `planning` or `waiting` — although non-terminal — are
left unchanged, as are already-terminal tasks. -/
theorem cancel_workflow_cancels_pending_running (o : Orchestrator) (wfId : String)
    (w : Workflow) (h : mapGet o.workflows wfId = some w) :
    mapGet (cancelWorkflow o wfId).workflows wfId =
      some { w with status := .cancelled, tasks := w.tasks.map cancelWorkflowEntry } ∧
    (∀ p : String × OrchTask, p.2.status = .pending ∨ p.2.status = .running →
      cancelWorkflowEntry p = (p.1, { p.2 with status := .cancelled })) ∧
    (∀ p : String × OrchTask, p.2.status ≠ .pending → p.2.status ≠ .running →
      cancelWorkflowEntry p = p) := by
  refine ⟨?_, ?_, ?_⟩
  · simp only [cancelWorkflow, h]
    exact mapGet_mapSet_self ..
  · intro p hp
    rcases hp with hp | hp <;> simp [cancelWorkflowEntry, hp]
  · intro p h1 h2
    simp [cancelWorkflowEntry, h1, h2]

/-- Witness for C6 (amended) on the workflow holding one `planning` task. -/
theorem cancel_workflow_cancels_witness :
    mapGet (cancelWorkflow orchC6 "w").workflows "w" =
      some { wfC6 with status := .cancelled, tasks := wfC6.tasks.map cancelWorkflowEntry } :=
  (cancel_workflow_cancels_pending_running orchC6 "w" wfC6 rfl).1

/-- C3 counterexample: a context whose session expired at time 0 (so is in the
past at any later instant) is still allowed by `checkPermission` whenever the
requested permission is in the effective set — the code never consults
`expiresAt` and no `SessionExpired` denial exists. -/
theorem expired_session_still_allowed :
    ctxC3.session.expiresAt = some 0 ∧ (0 : Nat) < 1 ∧
    checkPermission ctxC3 .taskSubmit = { allowed := true } := by
  decide

/-- C3 (amended): `checkPermission` never consults session expiry: its result
is a function of the effective permission set and the requested permission
alone, so a context whose `expiresAt` lies in the past is treated exactly like
a live one. -/
theorem check_permission_ignores_expiry (ctx : SecurityContext) (perm : Permission)
    (t : Option Nat) :
    checkPermission { ctx with session := { ctx.session with expiresAt := t } } perm =
      checkPermission ctx perm ∧
    (checkPermission ctx perm).allowed =
      (ctx.effectivePermissions.contains .adminAll ||
        ctx.effectivePermissions.contains perm) := by
  constructor
  · rfl
  · by_cases hA : Permission.adminAll ∈ ctx.effectivePermissions
    · simp [checkPermission, hA]
    · by_cases hP : perm ∈ ctx.effectivePermissions
      · simp [checkPermission, hA, hP]
      · simp [checkPermission, hA, hP]

/-- C8: `checkPermission` allows unconditionally when the effective set holds
`admin:all`; otherwise it allows exactly when the specific permission is
present; and every denial carries a reason naming the missing permission
together with the missing-permission list. -/
theorem check_permission_algorithm (ctx : SecurityContext) (perm : Permission) :
    (ctx.effectivePermissions.contains .adminAll = true →
      checkPermission ctx perm = { allowed := true }) ∧
    (ctx.effectivePermissions.contains .adminAll = false →
      ((checkPermission ctx perm).allowed = true ↔
        ctx.effectivePermissions.contains perm = true)) ∧
    ((checkPermission ctx perm).allowed = false →
      (checkPermission ctx perm).reason =
          some ("Missing required permission: " ++ permStr perm) ∧
        (checkPermission ctx perm).missingPermissions = some [perm]) := by
  refine ⟨?_, ?_, ?_⟩
  · intro hA
    have hA2 : Permission.adminAll ∈ ctx.effectivePermissions := by simpa using hA
    simp [checkPermission, hA2]
  · intro hA
    have hA2 : Permission.adminAll ∉ ctx.effectivePermissions := by simpa using hA
    by_cases hP : perm ∈ ctx.effectivePermissions
    · simp [checkPermission, hA2, hP]
    · simp [checkPermission, hA2, hP]
  · intro hD
    by_cases hA : Permission.adminAll ∈ ctx.effectivePermissions
    · simp [checkPermission, hA] at hD
    · by_cases hP : perm ∈ ctx.effectivePermissions
      · simp [checkPermission, hA, hP] at hD
      · simp [checkPermission, hA, hP]

/-- Witness for C8: spec scenario S4 — the readonly-style context is denied
`task:submit` with a reason naming it, the admin context is allowed
`config:write`. -/
theorem check_permission_algorithm_witness :
    checkPermission ctxAdmin .configWrite = { allowed := true } ∧
    ((checkPermission ctxReadonly .taskSubmit).allowed = true ↔
      ctxReadonly.effectivePermissions.contains .taskSubmit = true) ∧
    (checkPermission ctxReadonly .taskSubmit).reason =
      some ("Missing required permission: " ++ permStr .taskSubmit) :=
  ⟨(check_permission_algorithm ctxAdmin .configWrite).1 (by decide),
   (check_permission_algorithm ctxReadonly .taskSubmit).2.1 (by decide),
   ((check_permission_algorithm ctxReadonly .taskSubmit).2.2 (by decide)).1⟩

/-- C7 counterexample: the matched agent policy requires a `verified` device
and the context's device is `untrusted` — strictly less trusted — yet
`checkAgentAccess` allows: the code's trust comparison only recognizes a
required level of `trusted`. -/
theorem verified_trust_requirement_not_enforced :
    apC7.requireDeviceTrust = some .verified ∧
    trustLevelRank devC7.trustLevel < trustLevelRank .verified ∧
    (checkAgentAccess [("/repo", polC7)] ctxC7 "a").allowed = true := by
  decide

/-- C7 (amended): once the permission, scope, repo-policy, agent-policy and
role gates have passed, the device-trust comparison denies exactly when the
agent policy requires `trusted` and the device present is not `trusted`; a
required level of `verified` never causes a denial, nor does an absent device
or an absent requirement. -/
theorem agent_trust_check_only_enforces_trusted (policies : List (String × RepoPolicy))
    (ctx : SecurityContext) (agentId : String) (repoPath : String) (rest : List String)
    (pol : RepoPolicy) (ap : AgentAuthorization)
    (hperm : (checkPermission ctx .agentInvoke).allowed = true)
    (hscope : ctx.session.scope = some (repoPath :: rest))
    (hpol : mapGet policies repoPath = some pol)
    (hap : pol.agentPolicies.find? (fun p => p.agentId = agentId) = some ap)
    (hrole : ctx.session.roles.any (fun role => ap.allowedRoles.contains role) = true) :
    (∀ req, ap.requireDeviceTrust = some req → req ≠ .trusted →
      (checkAgentAccess policies ctx agentId).allowed = true) ∧
    (∀ dev, ap.requireDeviceTrust = some .trusted → ctx.device = some dev →
      dev.trustLevel ≠ .trusted →
      checkAgentAccess policies ctx agentId =
        { allowed := false,
          reason := some ("Agent " ++ agentId ++ " requires trusted device") }) ∧
    (∀ dev, ap.requireDeviceTrust = some .trusted → ctx.device = some dev →
      dev.trustLevel = .trusted → (checkAgentAccess policies ctx agentId).allowed = true) ∧
    (ctx.device = none → (checkAgentAccess policies ctx agentId).allowed = true) ∧
    (ap.requireDeviceTrust = none → (checkAgentAccess policies ctx agentId).allowed = true) := by
  have hform : checkAgentAccess policies ctx agentId =
      (match ap.requireDeviceTrust, ctx.device with
       | some req, some device =>
         if req = .trusted && device.trustLevel != .trusted then
           { allowed := false,
             reason := some ("Agent " ++ agentId ++ " requires trusted device") }
         else { allowed := true }
       | _, _ => ({ allowed := true } : PolicyCheckResult)) := by
    simp only [checkAgentAccess, hperm, hscope, hpol, hap, hrole, Bool.not_true,
      Bool.false_eq_true, if_false]
  refine ⟨?_, ?_, ?_, ?_, ?_⟩
  · intro req h1 h2
    rw [hform, h1]
    cases hdev : ctx.device with
    | none => rfl
    | some dev =>
      cases req with
      | trusted => exact absurd rfl h2
      | verified => rfl
      | untrusted => rfl
  · intro dev h1 h2 h3
    rw [hform, h1, h2]
    have : (dev.trustLevel != DeviceTrustLevel.trusted) = true := by
      cases hl : dev.trustLevel <;> simp_all
    simp [this]
  · intro dev h1 h2 h3
    rw [hform, h1, h2]
    simp [h3]
  · intro h1
    rw [hform, h1]
    cases ap.requireDeviceTrust <;> rfl
  · intro h1
    rw [hform, h1]

/-- Witness for C7 (amended): the fixture policy requiring `verified` on the
untrusted device is allowed through the trust gate. -/
theorem agent_trust_check_witness :
    (checkAgentAccess [("/repo", polC7)] ctxC7 "a").allowed = true :=
  (agent_trust_check_only_enforces_trusted [("/repo", polC7)] ctxC7 "a" "/repo" []
      polC7 apC7 (by decide) rfl (by decide) (by decide) (by decide)).1
    .verified rfl (by decide)

theorem stream_map_status (taskId : String) :
    ∀ (polls : List ClawLinkTaskStateResponse) (last : TaskStatus),
      (streamTaskUpdates taskId last polls).map (fun u => u.status) =
        specObservedStatuses last (polls.map (fun r => r.state)) := by
  intro polls
  induction polls with
  | nil => intro last; rfl
  | cons r rest ih =>
    intro last
    by_cases h : r.state = last
    · simp only [streamTaskUpdates, List.map_cons, specObservedStatuses, h, ne_eq,
        not_true_eq_false, if_false, if_pos rfl]
      cases ht : isTerminal last <;> simp [ht, ih]
    · simp only [streamTaskUpdates, List.map_cons, specObservedStatuses, ne_eq, h,
        not_false_eq_true, if_true, if_neg h]
      cases ht : isTerminal r.state <;> simp [ht, ih, pollUpdate]

theorem stream_no_stutter (taskId : String) :
    ∀ (polls : List ClawLinkTaskStateResponse) (last : TaskStatus),
      List.Chain' (fun a b => a ≠ b)
        (last :: (streamTaskUpdates taskId last polls).map (fun u => u.status)) := by
  intro polls
  induction polls with
  | nil => intro last; simp [streamTaskUpdates]
  | cons r rest ih =>
    intro last
    by_cases h : r.state = last
    · simp only [streamTaskUpdates, ne_eq, h, not_true_eq_false, if_false]
      cases ht : isTerminal last <;> simp [ht, ih]
    · simp only [streamTaskUpdates, ne_eq, h, not_false_eq_true, if_true]
      cases ht : isTerminal r.state with
      | true =>
        simp only [ht, if_true, List.map_cons, List.map_nil]
        refine List.chain'_cons.mpr ⟨?_, List.chain'_singleton _⟩
        exact fun he => h (Eq.symm he)
      | false =>
        simp only [ht, Bool.false_eq_true, if_false, List.map_cons, List.chain'_cons]
        exact ⟨fun he => h (Eq.symm he), ih r.state⟩

theorem stream_nonterminal_before_last (taskId : String) :
    ∀ (polls : List ClawLinkTaskStateResponse) (last : TaskStatus),
      ((streamTaskUpdates taskId last polls).dropLast.all
        (fun u => !isTerminal u.status)) = true := by
  intro polls
  induction polls with
  | nil => intro last; rfl
  | cons r rest ih =>
    intro last
    by_cases h : r.state = last
    · simp only [streamTaskUpdates, ne_eq, h, not_true_eq_false, if_false]
      cases ht : isTerminal last <;> simp [ht, ih]
    · simp only [streamTaskUpdates, ne_eq, h, not_false_eq_true, if_true]
      cases ht : isTerminal r.state with
      | true => simp
      | false =>
        simp only [ht, Bool.false_eq_true, if_false]
        cases ho : streamTaskUpdates taskId r.state rest with
        | nil => rfl
        | cons v vs =>
          rw [List.dropLast_cons₂, List.all_cons, Bool.and_eq_true]
          constructor
          · simp [pollUpdate, ht]
          · have := ih r.state
            rw [ho] at this
            exact this

theorem stream_last_terminal (taskId : String) :
    ∀ (polls : List ClawLinkTaskStateResponse) (last : TaskStatus),
      isTerminal last = false →
      polls.any (fun r => isTerminal r.state) = true →
      ((streamTaskUpdates taskId last polls).getLast?.map
        (fun u => isTerminal u.status)) = some true := by
  intro polls
  induction polls with
  | nil => intro last _ hany; simp [List.any_nil] at hany
  | cons r rest ih =>
    intro last hl hany
    cases ht : isTerminal r.state with
    | true =>
      have h : ¬ r.state = last := fun he => by rw [he, hl] at ht; cases ht
      simp only [streamTaskUpdates, ne_eq, h, not_false_eq_true, if_true, ht, if_pos]
      simp [pollUpdate, ht]
    | false =>
      have hrest : rest.any (fun r => isTerminal r.state) = true := by
        simp only [List.any_cons, ht, Bool.false_or] at hany
        exact hany
      by_cases h : r.state = last
      · simp only [streamTaskUpdates, ne_eq, h, not_true_eq_false, if_false, hl,
          Bool.false_eq_true, if_false]
        exact ih last hl hrest
      · simp only [streamTaskUpdates, ne_eq, h, not_false_eq_true, if_true, ht,
          Bool.false_eq_true, if_false]
        have hrec := ih r.state ht hrest
        cases ho : streamTaskUpdates taskId r.state rest with
        | nil => rw [ho] at hrec; simp at hrec
        | cons v vs =>
          rw [ho] at hrec
          rw [List.getLast?_cons_cons]
          exact hrec

theorem stream_progress_iff_completed (taskId : String) :
    ∀ (polls : List ClawLinkTaskStateResponse) (last : TaskStatus)
      (u : TaskUpdateEvent), u ∈ streamTaskUpdates taskId last polls →
      u.progress = (if u.status = .completed then some 100 else none) := by
  intro polls
  induction polls with
  | nil => intro last u hu; simp [streamTaskUpdates] at hu
  | cons r rest ih =>
    intro last u hu
    by_cases h : r.state = last
    · simp only [streamTaskUpdates, ne_eq, h, not_true_eq_false, if_false] at hu
      cases ht : isTerminal r.state with
      | true =>
        rw [h] at ht
        rw [ht] at hu
        simp at hu
      | false =>
        rw [h] at ht
        rw [ht] at hu
        simp only [Bool.false_eq_true, if_false] at hu
        exact ih last u hu
    · simp only [streamTaskUpdates, ne_eq, h, not_false_eq_true, if_true] at hu
      cases ht : isTerminal r.state with
      | true =>
        rw [ht] at hu
        simp only [if_true, List.mem_singleton] at hu
        subst hu
        simp [pollUpdate]
      | false =>
        rw [ht] at hu
        simp only [Bool.false_eq_true, if_false, List.mem_cons] at hu
        cases hu with
        | inl he => subst he; simp [pollUpdate]
        | inr hm => exact ih r.state u hm

/-- C9: `streamTaskUpdates`, driven by any sequence of remote poll responses,
(1) yields exactly the statuses that differ from the previously observed one
(starting from `pending`), truncated at the first terminal poll — so exactly
one update per observed status change; (2) never yields two consecutive equal
statuses nor repeats the initial `pending`; (3) every yielded update before
the final one is non-terminal; (4) when some poll reports a terminal state the
stream is non-empty and its final update carries a terminal status; and
(5) a yielded update carries `progress = 100` exactly when its status is
`completed`. -/
theorem stream_task_updates_correct (taskId : String)
    (polls : List ClawLinkTaskStateResponse) :
    (streamFromStart taskId polls).map (fun u => u.status) =
      specObservedStatuses .pending (polls.map (fun r => r.state)) ∧
    List.Chain' (fun a b => a ≠ b)
      (TaskStatus.pending :: (streamFromStart taskId polls).map (fun u => u.status)) ∧
    ((streamFromStart taskId polls).dropLast.all (fun u => !isTerminal u.status)) = true ∧
    (polls.any (fun r => isTerminal r.state) = true →
      ((streamFromStart taskId polls).getLast?.map
        (fun u => isTerminal u.status)) = some true) ∧
    (∀ u, u ∈ streamFromStart taskId polls →
      u.progress = (if u.status = .completed then some 100 else none)) :=
  ⟨stream_map_status taskId polls .pending,
   stream_no_stutter taskId polls .pending,
   stream_nonterminal_before_last taskId polls .pending,
   fun h => stream_last_terminal taskId polls .pending rfl h,
   fun u hu => stream_progress_iff_completed taskId polls .pending u hu⟩

/-- Witness for C9 on the S6 poll sequence `pending, pending, running,
completed`: the stream ends in a terminal update, and the `completed` update
it yields carries `progress = 100`. -/
theorem stream_task_updates_witness :
    ((streamFromStart "t" s6Polls).getLast?.map (fun u => isTerminal u.status)) =
      some true ∧
    TaskUpdateEvent.progress (pollUpdate "t" (s6poll .completed)) =
      (if TaskUpdateEvent.status (pollUpdate "t" (s6poll .completed)) = .completed then
        some 100 else none) :=
  ⟨(stream_task_updates_correct "t" s6Polls).2.2.2.1 (by decide),
   (stream_task_updates_correct "t" s6Polls).2.2.2.2
     (pollUpdate "t" (s6poll .completed)) (by decide)⟩

end CoderClaw
